import Mathlib

/-
Verification of the CBOR codec in sys/cbor/cbor.c (RIOT).

Shallow embedding conventions:
* The byte buffer behind `cbor_stream_t::data` is modelled as a total function
  `Nat → Nat`; every store goes through `% 256`, which is the C conversion of
  the stored value to `unsigned char`.  Bytes read from a well-formed stream
  are therefore `< 256`; theorems about arbitrary streams carry that bound as
  a hypothesis where it matters.
* `size_t` arithmetic is modelled as `Nat`; the one place where unsigned
  wrap-around is observable at small values, the `pos - 1` in `cbor_at_end`,
  is modelled explicitly modulo `2 ^ 64`.
* Out-parameters (`int *val`, `char *out`, ...) are modelled by passing the
  current pointee in and returning the new pointee; a null pointer is `none`.
* A possibly-null stream pointer is `Option cbor_stream_t`.  The `...N`
  variants embed the source functions on such a pointer; they return `none`
  exactly when the C code dereferences the null pointer (undefined
  behavior), and `some (ret, s)` when the call returns `ret` normally.
-/

set_option maxRecDepth 100000
set_option linter.unusedVariables false

/-- Stream of CBOR data: byte buffer, buffer size, write cursor
(`pos` is the index of the next free byte).  Mirrors `cbor_stream_t`. -/
structure cbor_stream_t where
  data : Nat → Nat
  size : Nat
  pos : Nat

/-- One store `s->data[s->pos++] = b`; the `% 256` is the conversion of the
stored value to `unsigned char`. -/
def wbyte (s : cbor_stream_t) (b : Nat) : cbor_stream_t :=
  ⟨fun i => if i = s.pos then b % 256 else s.data i, s.size, s.pos + 1⟩

/-- Sequence of byte stores at the cursor, first list element first. -/
def writeBytes (s : cbor_stream_t) (l : List Nat) : cbor_stream_t :=
  l.foldl wbyte s

/-- Macro `CBOR_TYPE(stream, offset)`: top three bits of the initial byte. -/
def CBOR_TYPE (s : cbor_stream_t) (offset : Nat) : Nat :=
  s.data offset &&& 0xE0

/-- Macro `CBOR_ADDITIONAL_INFO(stream, offset)`: low five bits. -/
def CBOR_ADDITIONAL_INFO (s : cbor_stream_t) (offset : Nat) : Nat :=
  s.data offset &&& 0x1F

/-- Embedding of `encode_int` (cbor.c:259) for a non-null stream.  Each
branch performs the source's `CBOR_ENSURE_SIZE(s, bytes)` check, which
fails when `s->pos + bytes >= s->size`, and then stores the initial byte
`major_type | ai` followed by the big-endian argument bytes. -/
def encode_int (major_type : Nat) (s : cbor_stream_t) (val : Nat) :
    Nat × cbor_stream_t :=
  if val ≤ 23 then
    if s.pos + 1 ≥ s.size then (0, s)
    else (1, writeBytes s [major_type ||| val])
  else if val ≤ 0xff then
    if s.pos + 2 ≥ s.size then (0, s)
    else (2, writeBytes s [major_type ||| 24, val &&& 0xff])
  else if val ≤ 0xffff then
    if s.pos + 3 ≥ s.size then (0, s)
    else (3, writeBytes s [major_type ||| 25, (val >>> 8) &&& 0xff, val &&& 0xff])
  else if val ≤ 0xffffffff then
    if s.pos + 5 ≥ s.size then (0, s)
    else (5, writeBytes s [major_type ||| 26, (val >>> 24) &&& 0xff,
      (val >>> 16) &&& 0xff, (val >>> 8) &&& 0xff, val &&& 0xff])
  else
    if s.pos + 9 ≥ s.size then (0, s)
    else (9, writeBytes s [major_type ||| 27, (val >>> 56) &&& 0xff,
      (val >>> 48) &&& 0xff, (val >>> 40) &&& 0xff, (val >>> 32) &&& 0xff,
      (val >>> 24) &&& 0xff, (val >>> 16) &&& 0xff, (val >>> 8) &&& 0xff,
      val &&& 0xff])

/-- Embedding of `decode_int` (cbor.c:307) for a non-null stream.  Returns
`(read_bytes, *val)`.  The source clears `*val` first, so the fall-through
case (additional information 28..31) returns `(0, 0)`: the out-parameter is
zeroed even though the call fails. -/
def decode_int (s : cbor_stream_t) (offset : Nat) : Nat × Nat :=
  let data : Nat → Nat := fun i => s.data (offset + i)
  let additional_info := CBOR_ADDITIONAL_INFO s offset
  if additional_info ≤ 23 then
    (1, data 0 &&& 0x1F)
  else if additional_info = 24 then
    (2, data 1)
  else if additional_info = 25 then
    (3, (data 1 <<< 8) ||| data 2)
  else if additional_info = 26 then
    (5, (data 1 <<< 24) ||| (data 2 <<< 16) ||| (data 3 <<< 8) ||| data 4)
  else if additional_info = 27 then
    (9, (data 1 <<< 56) ||| (data 2 <<< 48) ||| (data 3 <<< 40) |||
      (data 4 <<< 32) ||| (data 5 <<< 24) ||| (data 6 <<< 16) |||
      (data 7 <<< 8) ||| data 8)
  else
    (0, 0)

/-- C `strlen` on a byte sequence: length of the prefix before the first
zero byte. -/
def strlen (l : List Nat) : Nat :=
  (l.takeWhile (fun b => b != 0)).length

/-- Embedding of `encode_bytes` (cbor.c:353).  The head is written by
`encode_int` first; only afterwards does `CBOR_ENSURE_SIZE(s, length)` check
room for the payload, so a failing payload check returns 0 with the head
already in the stream.  The `memcpy` copies byte `i` of `data` for
`i < length` (reading 0 for out-of-range indices, which no caller does). -/
def encode_bytes (major_type : Nat) (s : cbor_stream_t) (data : List Nat)
    (length : Nat) : Nat × cbor_stream_t :=
  let r := encode_int major_type s length
  if r.1 = 0 then (0, r.2)
  else if r.2.pos + length ≥ r.2.size then (0, r.2)
  else (r.1 + length,
    writeBytes r.2 ((List.range length).map fun i => data.getD i 0))

/-- Embedding of `decode_bytes` (cbor.c:368) for a non-null stream.  The
out-buffer pointer is `Option`; the source returns 0 on a type mismatch, a
null pointer, a failing head decode, or when `length + 1 < bytes_length`
(the source's literal reserve check).  Otherwise it copies the payload,
stores a terminating zero at `out[bytes_length]`, and returns
`bytes_start + bytes_length`. -/
def decode_bytes (s : cbor_stream_t) (offset : Nat) (out : Option (Nat → Nat))
    (length : Nat) : Nat × Option (Nat → Nat) :=
  match out with
  | none => (0, none)
  | some o =>
    if CBOR_TYPE s offset ≠ 0x40 ∧ CBOR_TYPE s offset ≠ 0x60 then (0, some o)
    else
      let r := decode_int s offset
      if r.1 = 0 then (0, some o)
      else if length + 1 < r.2 then (0, some o)
      else (r.1 + r.2,
        some fun i =>
          if i = r.2 then 0
          else if i < r.2 then s.data (offset + r.1 + i)
          else o i)

/-- Conversion of a `uint64_t` value to a 32-bit C `int`
(two's-complement wrap, the universal implementation-defined behavior). -/
def int_of_u64 (u : Nat) : Int :=
  if u % 2 ^ 32 < 2 ^ 31 then ((u % 2 ^ 32 : Nat) : Int)
  else ((u % 2 ^ 32 : Nat) : Int) - 2 ^ 32

/-- Conversion of a `uint64_t` value to a 64-bit C `int64_t`. -/
def int64_of_u64 (u : Nat) : Int :=
  if u % 2 ^ 64 < 2 ^ 63 then ((u % 2 ^ 64 : Nat) : Int)
  else ((u % 2 ^ 64 : Nat) : Int) - 2 ^ 64

/-- The C expression `-1 - buf` with `buf : uint64_t`: evaluated in
`uint64_t`, giving `2^64 - 1 - buf`. -/
def u64_neg1_sub (buf : Nat) : Nat :=
  2 ^ 64 - 1 - buf % 2 ^ 64

/-- Embedding of `cbor_deserialize_int` (cbor.c:390).  Returns
`(read_bytes, *val)`; `val = none` is a null out-pointer.  On a major-type
mismatch or null out-pointer the pointee is untouched; otherwise `*val` is
assigned on both major types, even when `decode_int` failed. -/
def cbor_deserialize_int (s : cbor_stream_t) (offset : Nat)
    (val : Option Int) : Nat × Option Int :=
  if (CBOR_TYPE s offset ≠ 0x00 ∧ CBOR_TYPE s offset ≠ 0x20) ∨ val.isNone then
    (0, val)
  else
    let r := decode_int s offset
    if CBOR_TYPE s offset = 0x00 then (r.1, some (int_of_u64 r.2))
    else (r.1, some (int_of_u64 (u64_neg1_sub r.2)))

/-- Embedding of `cbor_serialize_int` (cbor.c:409); `val` is a C `int`. -/
def cbor_serialize_int (s : cbor_stream_t) (val : Int) : Nat × cbor_stream_t :=
  if 0 ≤ val then encode_int 0x00 s val.toNat
  else encode_int 0x20 s (-1 - val).toNat

/-- Embedding of `cbor_deserialize_uint64_t` (cbor.c:421). -/
def cbor_deserialize_uint64_t (s : cbor_stream_t) (offset : Nat)
    (val : Option Nat) : Nat × Option Nat :=
  if CBOR_TYPE s offset ≠ 0x00 ∨ val.isNone then (0, val)
  else
    let r := decode_int s offset
    (r.1, some r.2)

/-- Embedding of `cbor_serialize_uint64_t` (cbor.c:430). -/
def cbor_serialize_uint64_t (s : cbor_stream_t) (val : Nat) :
    Nat × cbor_stream_t :=
  encode_int 0x00 s val

/-- Embedding of `cbor_deserialize_int64_t` (cbor.c:435). -/
def cbor_deserialize_int64_t (s : cbor_stream_t) (offset : Nat)
    (val : Option Int) : Nat × Option Int :=
  if (CBOR_TYPE s offset ≠ 0x00 ∧ CBOR_TYPE s offset ≠ 0x20) ∨ val.isNone then
    (0, val)
  else
    let r := decode_int s offset
    if CBOR_TYPE s offset = 0x00 then (r.1, some (int64_of_u64 r.2))
    else (r.1, some (int64_of_u64 (u64_neg1_sub r.2)))

/-- Embedding of `cbor_serialize_int64_t` (cbor.c:454); `val` is `int64_t`. -/
def cbor_serialize_int64_t (s : cbor_stream_t) (val : Int) :
    Nat × cbor_stream_t :=
  if 0 ≤ val then encode_int 0x00 s val.toNat
  else encode_int 0x20 s (-1 - val).toNat

/-- Embedding of `cbor_deserialize_bool` (cbor.c:466).  Requires major type
7; the value is `true` iff the byte equals `0xF5`; always consumes 1 byte
on the major-7 path. -/
def cbor_deserialize_bool (s : cbor_stream_t) (offset : Nat)
    (val : Option Bool) : Nat × Option Bool :=
  if CBOR_TYPE s offset ≠ 0xE0 ∨ val.isNone then (0, val)
  else (1, some (decide (s.data offset = 0xF5)))

/-- Embedding of `cbor_serialize_bool` (cbor.c:477) for a non-null stream. -/
def cbor_serialize_bool (s : cbor_stream_t) (val : Bool) :
    Nat × cbor_stream_t :=
  if s.pos + 1 ≥ s.size then (0, s)
  else (1, wbyte s (if val then 0xF5 else 0xF4))

/-- Embedding of `cbor_serialize_byte_string` (cbor.c:571): the payload
length is `strlen(val)`. -/
def cbor_serialize_byte_string (s : cbor_stream_t) (val : List Nat) :
    Nat × cbor_stream_t :=
  encode_bytes 0x40 s val (strlen val)

/-- Embedding of `cbor_deserialize_byte_string` (cbor.c:562). -/
def cbor_deserialize_byte_string (s : cbor_stream_t) (offset : Nat)
    (val : Option (Nat → Nat)) (length : Nat) : Nat × Option (Nat → Nat) :=
  if CBOR_TYPE s offset ≠ 0x40 then (0, val)
  else decode_bytes s offset val length

/-- Embedding of `cbor_serialize_unicode_string` (cbor.c:585). -/
def cbor_serialize_unicode_string (s : cbor_stream_t) (val : List Nat) :
    Nat × cbor_stream_t :=
  encode_bytes 0x60 s val (strlen val)

/-- Embedding of `cbor_deserialize_unicode_string` (cbor.c:576). -/
def cbor_deserialize_unicode_string (s : cbor_stream_t) (offset : Nat)
    (val : Option (Nat → Nat)) (length : Nat) : Nat × Option (Nat → Nat) :=
  if CBOR_TYPE s offset ≠ 0x60 then (0, val)
  else decode_bytes s offset val length

/-- Embedding of `cbor_serialize_array` (cbor.c:602). -/
def cbor_serialize_array (s : cbor_stream_t) (array_length : Nat) :
    Nat × cbor_stream_t :=
  encode_int 0x80 s array_length

/-- Embedding of `cbor_serialize_map` (cbor.c:684). -/
def cbor_serialize_map (s : cbor_stream_t) (map_length : Nat) :
    Nat × cbor_stream_t :=
  encode_int 0xA0 s map_length

/-- Embedding of `cbor_at_end` (cbor.c:665) on a possibly-null stream.
The source computes `s->pos - 1` in `size_t`, so `pos == 0` wraps to
`2^64 - 1` (64-bit `size_t`). -/
def cbor_at_end (s : Option cbor_stream_t) (offset : Nat) : Bool :=
  match s with
  | some st => decide (offset ≥ (st.pos + (2 ^ 64 - 1)) % 2 ^ 64)
  | none => true

/-- Embedding of `cbor_at_break` (cbor.c:660); the data byte is read only
when `cbor_at_end` is false (C short-circuit), hence never on a null
stream. -/
def cbor_at_break (s : Option cbor_stream_t) (offset : Nat) : Bool :=
  cbor_at_end s offset ||
    (match s with
     | some st => decide (st.data offset = 0xFF)
     | none => false)

/-- Embedding of `cbor_at_tag` (cbor.c:648). -/
def cbor_at_tag (s : Option cbor_stream_t) (offset : Nat) : Bool :=
  cbor_at_end s offset ||
    (match s with
     | some st => decide (CBOR_TYPE st offset = 0xC0)
     | none => false)

/-- Embedding of `encode_int` on a possibly-null stream: the source checks
`!s` before touching the stream and returns 0. -/
def encode_intN (major_type : Nat) (s : Option cbor_stream_t) (val : Nat) :
    Option (Nat × Option cbor_stream_t) :=
  match s with
  | none => some (0, none)
  | some st => some ((encode_int major_type st val).1,
      some (encode_int major_type st val).2)

/-- Embedding of `cbor_serialize_bool` on a possibly-null stream: the
source runs `CBOR_ENSURE_SIZE(s, 1)`, which reads `s->pos` and `s->size`
with no null check first, so a null stream is dereferenced (`none`). -/
def cbor_serialize_boolN (s : Option cbor_stream_t) (val : Bool) :
    Option (Nat × Option cbor_stream_t) :=
  match s with
  | none => none
  | some st => some ((cbor_serialize_bool st val).1,
      some (cbor_serialize_bool st val).2)

/-- Embedding of `cbor_deserialize_int` on a possibly-null stream: the
source evaluates `CBOR_TYPE(stream, offset)` before any null test, so a
null stream is dereferenced (`none`). -/
def cbor_deserialize_intN (s : Option cbor_stream_t) (offset : Nat)
    (val : Option Int) : Option (Nat × Option Int) :=
  match s with
  | none => none
  | some st => some (cbor_deserialize_int st offset val)

/-- Embedding of `decode_bytes` on a possibly-null stream: in the source
condition `(CBOR_TYPE(s, offset) != ... ) || !s || !out`, the dereference
of `s` happens before the `!s` test, so a null stream is dereferenced
(`none`). -/
def decode_bytesN (s : Option cbor_stream_t) (offset : Nat)
    (out : Option (Nat → Nat)) (length : Nat) :
    Option (Nat × Option (Nat → Nat)) :=
  match s with
  | none => none
  | some st => some (decode_bytes st offset out length)

/-- Embedding of `encode_float_half` (cbor.c:170).  The source reads its
`float` argument only through a union as the 32-bit pattern `u.i` and then
computes with integer operations alone, so it is embedded as that integer
function; `x` is the IEEE-754 binary32 bit pattern.  Stores to the
`uint16_t` locals are taken modulo `2^16` as the C conversion does. -/
def encode_float_half (x : Nat) : Nat :=
  let bits := (x >>> 16) &&& 0x8000
  let m := (x >>> 12) &&& 0x07ff
  let e := (x >>> 23) &&& 0xff
  if e < 103 then bits
  else if e > 142 then
    (bits ||| 0x7c00) |||
      (if e = 255 ∧ x &&& 0x007fffff ≠ 0 then 1 else 0)
  else if e < 113 then
    (bits ||| (((m ||| 0x0800) >>> (114 - e)) +
      (((m ||| 0x0800) >>> (113 - e)) &&& 1))) % 2 ^ 16
  else
    ((bits ||| (((e - 112) <<< 10) ||| (m >>> 1))) % 2 ^ 16 + (m &&& 1)) % 2 ^ 16

/-- Embedding of `cbor_serialize_float_half` (cbor.c:500) for a non-null
stream; `val` is the binary32 bit pattern of the C float argument.  Writes
`0xF9` followed by the half-precision encoding in network byte order
(`HTONS` plus `memcpy` store the high byte first). -/
def cbor_serialize_float_half (s : cbor_stream_t) (val : Nat) :
    Nat × cbor_stream_t :=
  if s.pos + 3 ≥ s.size then (0, s)
  else (3, writeBytes s [0xF9, (encode_float_half val >>> 8) &&& 0xff,
    encode_float_half val &&& 0xff])

/-- Embedding of `cbor_serialize_float` (cbor.c:526) for a non-null
stream; `val` is the binary32 bit pattern (the source moves the pattern
through a union and `htonf`, which only reorders the bytes). -/
def cbor_serialize_float (s : cbor_stream_t) (val : Nat) :
    Nat × cbor_stream_t :=
  if s.pos + 5 ≥ s.size then (0, s)
  else (5, writeBytes s [0xFA, (val >>> 24) &&& 0xff, (val >>> 16) &&& 0xff,
    (val >>> 8) &&& 0xff, val &&& 0xff])

/-- Embedding of `cbor_serialize_double` (cbor.c:552) for a non-null
stream; `val` is the binary64 bit pattern. -/
def cbor_serialize_double (s : cbor_stream_t) (val : Nat) :
    Nat × cbor_stream_t :=
  if s.pos + 9 ≥ s.size then (0, s)
  else (9, writeBytes s [0xFB, (val >>> 56) &&& 0xff, (val >>> 48) &&& 0xff,
    (val >>> 40) &&& 0xff, (val >>> 32) &&& 0xff, (val >>> 24) &&& 0xff,
    (val >>> 16) &&& 0xff, (val >>> 8) &&& 0xff, val &&& 0xff])

/-- Embedding of `cbor_deserialize_float` (cbor.c:510); the pointee is the
binary32 bit pattern (`ntohf` only reorders the bytes read by the
type-punned load, yielding the big-endian recombination). -/
def cbor_deserialize_float (s : cbor_stream_t) (offset : Nat)
    (val : Option Nat) : Nat × Option Nat :=
  if CBOR_TYPE s offset ≠ 0xE0 ∨ val.isNone then (0, val)
  else if s.data offset = 0xFA then
    (4, some ((s.data (offset + 1) <<< 24) ||| (s.data (offset + 2) <<< 16) |||
      (s.data (offset + 3) <<< 8) ||| s.data (offset + 4)))
  else (0, val)

/-- Embedding of `cbor_deserialize_double` (cbor.c:536); the pointee is
the binary64 bit pattern. -/
def cbor_deserialize_double (s : cbor_stream_t) (offset : Nat)
    (val : Option Nat) : Nat × Option Nat :=
  if CBOR_TYPE s offset ≠ 0xE0 ∨ val.isNone then (0, val)
  else if s.data offset = 0xFB then
    (9, some ((s.data (offset + 1) <<< 56) ||| (s.data (offset + 2) <<< 48) |||
      (s.data (offset + 3) <<< 40) ||| (s.data (offset + 4) <<< 32) |||
      (s.data (offset + 5) <<< 24) ||| (s.data (offset + 6) <<< 16) |||
      (s.data (offset + 7) <<< 8) ||| s.data (offset + 8)))
  else (0, val)

/-- Embedding of `cbor_deserialize_array` (cbor.c:590). -/
def cbor_deserialize_array (s : cbor_stream_t) (offset : Nat)
    (array_length : Option Nat) : Nat × Option Nat :=
  if CBOR_TYPE s offset ≠ 0x80 ∨ array_length.isNone then (0, array_length)
  else ((decode_int s offset).1, some (decode_int s offset).2)

/-- Embedding of `cbor_deserialize_map` (cbor.c:672). -/
def cbor_deserialize_map (s : cbor_stream_t) (offset : Nat)
    (map_length : Option Nat) : Nat × Option Nat :=
  if CBOR_TYPE s offset ≠ 0xA0 ∨ map_length.isNone then (0, map_length)
  else ((decode_int s offset).1, some (decode_int s offset).2)

/-- Embedding of `cbor_write_tag` (cbor.c:641) for a non-null stream. -/
def cbor_write_tag (s : cbor_stream_t) (tag : Nat) : Nat × cbor_stream_t :=
  if s.pos + 1 ≥ s.size then (0, s)
  else (1, writeBytes s [0xC0 ||| tag])

/-- Embedding of `cbor_write_break` (cbor.c:653) for a non-null stream. -/
def cbor_write_break (s : cbor_stream_t) : Nat × cbor_stream_t :=
  if s.pos + 1 ≥ s.size then (0, s)
  else (1, writeBytes s [0xFF])

/-- Embedding of `cbor_serialize_indefinite_array` (cbor.c:608) for a
non-null stream. -/
def cbor_serialize_indefinite_array (s : cbor_stream_t) :
    Nat × cbor_stream_t :=
  if s.pos + 1 ≥ s.size then (0, s)
  else (1, writeBytes s [0x80 ||| 0x1F])

/-- Embedding of `cbor_serialize_indefinite_map` (cbor.c:625) for a
non-null stream. -/
def cbor_serialize_indefinite_map (s : cbor_stream_t) :
    Nat × cbor_stream_t :=
  if s.pos + 1 ≥ s.size then (0, s)
  else (1, writeBytes s [0xA0 ||| 0x1F])

/-- Atomicity of one serialize call on stream `s` with result `r =
(returned count, new stream)`: a zero return leaves the stream untouched;
a non-zero return advances `pos` by exactly the returned count, keeps
`size`, and changes no byte outside the window `[pos, pos + count)`. -/
def atomic_write (s : cbor_stream_t) (r : Nat × cbor_stream_t) : Prop :=
  (r.1 = 0 → r.2 = s) ∧
  (r.1 ≠ 0 →
    r.2.pos = s.pos + r.1 ∧
    r.2.size = s.size ∧
    ∀ i, i < s.pos ∨ s.pos + r.1 ≤ i → r.2.data i = s.data i)

/-- Embedding of `cbor_serialize_float_half` on a possibly-null stream:
`CBOR_ENSURE_SIZE` dereferences the stream with no null check (`none`). -/
def cbor_serialize_float_halfN (s : Option cbor_stream_t) (val : Nat) :
    Option (Nat × Option cbor_stream_t) :=
  match s with
  | none => none
  | some st => some ((cbor_serialize_float_half st val).1,
      some (cbor_serialize_float_half st val).2)

/-- Embedding of `cbor_serialize_float` on a possibly-null stream. -/
def cbor_serialize_floatN (s : Option cbor_stream_t) (val : Nat) :
    Option (Nat × Option cbor_stream_t) :=
  match s with
  | none => none
  | some st => some ((cbor_serialize_float st val).1,
      some (cbor_serialize_float st val).2)

/-- Embedding of `cbor_serialize_double` on a possibly-null stream. -/
def cbor_serialize_doubleN (s : Option cbor_stream_t) (val : Nat) :
    Option (Nat × Option cbor_stream_t) :=
  match s with
  | none => none
  | some st => some ((cbor_serialize_double st val).1,
      some (cbor_serialize_double st val).2)

/-- Embedding of `cbor_write_tag` on a possibly-null stream. -/
def cbor_write_tagN (s : Option cbor_stream_t) (tag : Nat) :
    Option (Nat × Option cbor_stream_t) :=
  match s with
  | none => none
  | some st => some ((cbor_write_tag st tag).1, some (cbor_write_tag st tag).2)

/-- Embedding of `cbor_write_break` on a possibly-null stream. -/
def cbor_write_breakN (s : Option cbor_stream_t) :
    Option (Nat × Option cbor_stream_t) :=
  match s with
  | none => none
  | some st => some ((cbor_write_break st).1, some (cbor_write_break st).2)

/-- Embedding of `cbor_serialize_indefinite_array` on a possibly-null
stream. -/
def cbor_serialize_indefinite_arrayN (s : Option cbor_stream_t) :
    Option (Nat × Option cbor_stream_t) :=
  match s with
  | none => none
  | some st => some ((cbor_serialize_indefinite_array st).1,
      some (cbor_serialize_indefinite_array st).2)

/-- Embedding of `cbor_serialize_indefinite_map` on a possibly-null
stream. -/
def cbor_serialize_indefinite_mapN (s : Option cbor_stream_t) :
    Option (Nat × Option cbor_stream_t) :=
  match s with
  | none => none
  | some st => some ((cbor_serialize_indefinite_map st).1,
      some (cbor_serialize_indefinite_map st).2)

/-- Embedding of `cbor_deserialize_uint64_t` on a possibly-null stream:
`CBOR_TYPE(stream, offset)` is evaluated before any null test (`none`). -/
def cbor_deserialize_uint64_tN (s : Option cbor_stream_t) (offset : Nat)
    (val : Option Nat) : Option (Nat × Option Nat) :=
  match s with
  | none => none
  | some st => some (cbor_deserialize_uint64_t st offset val)

/-- Embedding of `cbor_deserialize_int64_t` on a possibly-null stream. -/
def cbor_deserialize_int64_tN (s : Option cbor_stream_t) (offset : Nat)
    (val : Option Int) : Option (Nat × Option Int) :=
  match s with
  | none => none
  | some st => some (cbor_deserialize_int64_t st offset val)

/-- Embedding of `cbor_deserialize_bool` on a possibly-null stream. -/
def cbor_deserialize_boolN (s : Option cbor_stream_t) (offset : Nat)
    (val : Option Bool) : Option (Nat × Option Bool) :=
  match s with
  | none => none
  | some st => some (cbor_deserialize_bool st offset val)

/-- Embedding of `cbor_deserialize_float` on a possibly-null stream. -/
def cbor_deserialize_floatN (s : Option cbor_stream_t) (offset : Nat)
    (val : Option Nat) : Option (Nat × Option Nat) :=
  match s with
  | none => none
  | some st => some (cbor_deserialize_float st offset val)

/-- Embedding of `cbor_deserialize_double` on a possibly-null stream. -/
def cbor_deserialize_doubleN (s : Option cbor_stream_t) (offset : Nat)
    (val : Option Nat) : Option (Nat × Option Nat) :=
  match s with
  | none => none
  | some st => some (cbor_deserialize_double st offset val)

/-- Embedding of `cbor_deserialize_array` on a possibly-null stream. -/
def cbor_deserialize_arrayN (s : Option cbor_stream_t) (offset : Nat)
    (val : Option Nat) : Option (Nat × Option Nat) :=
  match s with
  | none => none
  | some st => some (cbor_deserialize_array st offset val)

/-- Embedding of `cbor_deserialize_map` on a possibly-null stream. -/
def cbor_deserialize_mapN (s : Option cbor_stream_t) (offset : Nat)
    (val : Option Nat) : Option (Nat × Option Nat) :=
  match s with
  | none => none
  | some st => some (cbor_deserialize_map st offset val)

/-- Embedding of `cbor_deserialize_byte_string` on a possibly-null
stream. -/
def cbor_deserialize_byte_stringN (s : Option cbor_stream_t) (offset : Nat)
    (out : Option (Nat → Nat)) (length : Nat) :
    Option (Nat × Option (Nat → Nat)) :=
  match s with
  | none => none
  | some st => some (cbor_deserialize_byte_string st offset out length)

/-- Embedding of `cbor_deserialize_unicode_string` on a possibly-null
stream. -/
def cbor_deserialize_unicode_stringN (s : Option cbor_stream_t) (offset : Nat)
    (out : Option (Nat → Nat)) (length : Nat) :
    Option (Nat × Option (Nat → Nat)) :=
  match s with
  | none => none
  | some st => some (cbor_deserialize_unicode_string st offset out length)

/- Helper lemmas about the byte-buffer model. -/

theorem wbyte_pos (s : cbor_stream_t) (b : Nat) : (wbyte s b).pos = s.pos + 1 := rfl

theorem wbyte_size (s : cbor_stream_t) (b : Nat) : (wbyte s b).size = s.size := rfl

theorem writeBytes_cons (s : cbor_stream_t) (b : Nat) (t : List Nat) :
    writeBytes s (b :: t) = writeBytes (wbyte s b) t := rfl

theorem writeBytes_pos (l : List Nat) (s : cbor_stream_t) :
    (writeBytes s l).pos = s.pos + l.length := by
  induction l generalizing s with
  | nil => simp [writeBytes]
  | cons b t ih =>
    rw [writeBytes_cons, ih (wbyte s b), wbyte_pos]
    simp
    omega

theorem writeBytes_size (l : List Nat) (s : cbor_stream_t) :
    (writeBytes s l).size = s.size := by
  induction l generalizing s with
  | nil => simp [writeBytes]
  | cons b t ih => rw [writeBytes_cons, ih (wbyte s b), wbyte_size]

theorem writeBytes_data_outside (l : List Nat) (s : cbor_stream_t) (i : Nat)
    (h : i < s.pos ∨ s.pos + l.length ≤ i) :
    (writeBytes s l).data i = s.data i := by
  induction l generalizing s with
  | nil => simp [writeBytes]
  | cons b t ih =>
    rw [writeBytes_cons, ih (wbyte s b) (by rw [wbyte_pos]; simp at h ⊢; omega)]
    show (if i = s.pos then b % 256 else s.data i) = s.data i
    rw [if_neg (by simp at h; omega)]

theorem writeBytes_data_get (l : List Nat) (s : cbor_stream_t) (i : Nat)
    (h : i < l.length) :
    (writeBytes s l).data (s.pos + i) = l.getD i 0 % 256 := by
  induction l generalizing s i with
  | nil => simp at h
  | cons b t ih =>
    rw [writeBytes_cons]
    cases i with
    | zero =>
      rw [writeBytes_data_outside t (wbyte s b) (s.pos + 0) (by rw [wbyte_pos]; omega)]
      show (if s.pos + 0 = s.pos then b % 256 else s.data (s.pos + 0)) = (b :: t).getD 0 0 % 256
      rw [if_pos (by omega)]
      simp
    | succ j =>
      have hp : s.pos + (j + 1) = (wbyte s b).pos + j := by rw [wbyte_pos]; omega
      rw [hp, ih (wbyte s b) j (by simp at h; omega)]
      simp

/- Bit-level bridge lemmas. -/

theorem land255 (x : Nat) : x &&& 255 = x % 256 := by
  have h := Nat.and_pow_two_sub_one_eq_mod x 8
  norm_num at h
  exact h

theorem land31 (x : Nat) : x &&& 31 = x % 32 := by
  have h := Nat.and_pow_two_sub_one_eq_mod x 5
  norm_num at h
  exact h

theorem lor_land_distrib (x y m : Nat) :
    (x ||| y) &&& m = (x &&& m) ||| (y &&& m) := by
  apply Nat.eq_of_testBit_eq
  intro i
  simp [Nat.testBit_lor, Nat.testBit_land, Bool.and_or_distrib_right]

theorem lor_shiftRight_distrib (x y n : Nat) :
    (x ||| y) >>> n = (x >>> n) ||| (y >>> n) := by
  apply Nat.eq_of_testBit_eq
  intro i
  simp [Nat.testBit_lor, Nat.testBit_shiftRight]

theorem lor_disjoint (n x y : Nat) (hx : 2 ^ n ∣ x) (hy : y < 2 ^ n) :
    x ||| y = x + y := by
  have hmod : (x ||| y) % 2 ^ n = y := by
    rw [← Nat.and_pow_two_sub_one_eq_mod, lor_land_distrib,
      Nat.and_pow_two_sub_one_eq_mod, Nat.and_pow_two_sub_one_eq_mod]
    obtain ⟨a, rfl⟩ := hx
    simp [Nat.mul_mod_right, Nat.mod_eq_of_lt hy]
  have hdiv : (x ||| y) / 2 ^ n = x / 2 ^ n := by
    have h1 := lor_shiftRight_distrib x y n
    rw [Nat.shiftRight_eq_div_pow, Nat.shiftRight_eq_div_pow,
      Nat.shiftRight_eq_div_pow] at h1
    rw [h1, Nat.div_eq_of_lt hy]
    simp
  have hsplit := Nat.div_add_mod (x ||| y) (2 ^ n)
  rw [hmod, hdiv] at hsplit
  have hx2 : 2 ^ n * (x / 2 ^ n) = x := Nat.mul_div_cancel' hx
  omega

theorem recombine2 (d1 d2 : Nat) (h2 : d2 < 256) :
    (d1 <<< 8) ||| d2 = d1 * 256 + d2 := by
  rw [Nat.shiftLeft_eq,
    lor_disjoint 8 (d1 * 2 ^ 8) d2 (dvd_mul_left _ _) (by omega)]
  omega

theorem recombine4 (d1 d2 d3 d4 : Nat) (h2 : d2 < 256) (h3 : d3 < 256)
    (h4 : d4 < 256) :
    (d1 <<< 24) ||| (d2 <<< 16) ||| (d3 <<< 8) ||| d4 =
      d1 * 16777216 + d2 * 65536 + d3 * 256 + d4 := by
  rw [Nat.shiftLeft_eq, Nat.shiftLeft_eq, Nat.shiftLeft_eq,
    lor_disjoint 24 (d1 * 2 ^ 24) (d2 * 2 ^ 16) (dvd_mul_left _ _) (by omega),
    lor_disjoint 16 (d1 * 2 ^ 24 + d2 * 2 ^ 16) (d3 * 2 ^ 8)
      (Dvd.dvd.add (Dvd.dvd.mul_left (by norm_num) d1) (dvd_mul_left _ _)) (by omega),
    lor_disjoint 8 (d1 * 2 ^ 24 + d2 * 2 ^ 16 + d3 * 2 ^ 8) d4
      (Dvd.dvd.add (Dvd.dvd.add (Dvd.dvd.mul_left (by norm_num) d1)
        (Dvd.dvd.mul_left (by norm_num) d2)) (dvd_mul_left _ _)) (by omega)]
  omega

theorem writeBytes_atomic_side (s : cbor_stream_t) (l : List Nat) :
    (writeBytes s l).pos = s.pos + l.length ∧
    (writeBytes s l).size = s.size ∧
    ∀ i, i < s.pos ∨ s.pos + l.length ≤ i →
      (writeBytes s l).data i = s.data i :=
  ⟨writeBytes_pos l s, writeBytes_size l s,
    fun i hi => writeBytes_data_outside l s i hi⟩

/-- Core atomicity of `encode_int`: every branch checks the room first, so a
zero return leaves the stream untouched and a non-zero return advances `pos`
by exactly the returned count, touching no byte outside the written window. -/
theorem encode_int_atomic (major val : Nat) (s : cbor_stream_t) :
    ((encode_int major s val).1 = 0 → (encode_int major s val).2 = s) ∧
    ((encode_int major s val).1 ≠ 0 →
      (encode_int major s val).2.pos = s.pos + (encode_int major s val).1 ∧
      (encode_int major s val).2.size = s.size ∧
      ∀ i, i < s.pos ∨ s.pos + (encode_int major s val).1 ≤ i →
        (encode_int major s val).2.data i = s.data i) := by
  unfold encode_int
  repeat' split
  all_goals
    first
      | exact ⟨fun _ => rfl, fun h => absurd rfl h⟩
      | exact ⟨fun h => by simp at h, fun _ =>
          ⟨by simp [writeBytes_pos], by simp [writeBytes_size],
           fun i hi => writeBytes_data_outside _ _ _ (by simpa using hi)⟩⟩

theorem major_head_land31 (major k : Nat) (hmaj : major = 0 ∨ major = 32)
    (hk : k < 32) : (major ||| k) % 256 &&& 31 = k := by
  rcases hmaj with h | h <;> subst h
  · exact (by decide : ∀ x < 32, (0 ||| x) % 256 &&& 31 = x) k hk
  · exact (by decide : ∀ x < 32, (32 ||| x) % 256 &&& 31 = x) k hk

theorem major_head_land224 (major k : Nat) (hmaj : major = 0 ∨ major = 32)
    (hk : k < 32) : (major ||| k) % 256 &&& 224 = major := by
  rcases hmaj with h | h <;> subst h
  · exact (by decide : ∀ x < 32, (0 ||| x) % 256 &&& 224 = 0) k hk
  · exact (by decide : ∀ x < 32, (32 ||| x) % 256 &&& 224 = 32) k hk

theorem decode_int_ai_le23 (s : cbor_stream_t) (offset : Nat)
    (h : CBOR_ADDITIONAL_INFO s offset ≤ 23) :
    decode_int s offset = (1, s.data offset &&& 31) := by
  simp [decode_int, h]

theorem decode_int_ai24 (s : cbor_stream_t) (offset : Nat)
    (h : CBOR_ADDITIONAL_INFO s offset = 24) :
    decode_int s offset = (2, s.data (offset + 1)) := by
  simp [decode_int, h]

theorem decode_int_ai25 (s : cbor_stream_t) (offset : Nat)
    (h : CBOR_ADDITIONAL_INFO s offset = 25) :
    decode_int s offset =
      (3, (s.data (offset + 1) <<< 8) ||| s.data (offset + 2)) := by
  simp [decode_int, h]

theorem decode_int_ai26 (s : cbor_stream_t) (offset : Nat)
    (h : CBOR_ADDITIONAL_INFO s offset = 26) :
    decode_int s offset =
      (5, (s.data (offset + 1) <<< 24) ||| (s.data (offset + 2) <<< 16) |||
        (s.data (offset + 3) <<< 8) ||| s.data (offset + 4)) := by
  simp [decode_int, h]

theorem decode_int_ai_invalid (s : cbor_stream_t) (offset : Nat)
    (h : 28 ≤ CBOR_ADDITIONAL_INFO s offset) :
    decode_int s offset = (0, 0) := by
  have h1 : ¬ CBOR_ADDITIONAL_INFO s offset ≤ 23 := by omega
  have h2 : CBOR_ADDITIONAL_INFO s offset ≠ 24 := by omega
  have h3 : CBOR_ADDITIONAL_INFO s offset ≠ 25 := by omega
  have h4 : CBOR_ADDITIONAL_INFO s offset ≠ 26 := by omega
  have h5 : CBOR_ADDITIONAL_INFO s offset ≠ 27 := by omega
  simp [decode_int, h1, h2, h3, h4, h5]

/-- Workhorse: a head encoded by `encode_int` with major type 0 or 1 into a
stream with enough room decodes back, at the position it was written, to the
same argument and byte count, and its initial byte carries the major type. -/
theorem decode_encode_int (major : Nat) (s : cbor_stream_t) (val : Nat)
    (hmaj : major = 0 ∨ major = 32) (hval : val ≤ 4294967295)
    (hcap : s.pos + 9 < s.size) :
    (encode_int major s val).1 ≠ 0 ∧
    (encode_int major s val).2.pos = s.pos + (encode_int major s val).1 ∧
    CBOR_TYPE (encode_int major s val).2 s.pos = major ∧
    decode_int (encode_int major s val).2 s.pos =
      ((encode_int major s val).1, val) := by
  by_cases h1 : val ≤ 23
  · have e : encode_int major s val = (1, writeBytes s [major ||| val]) := by
      unfold encode_int
      rw [if_pos h1, if_neg (show ¬ s.pos + 1 ≥ s.size by omega)]
    rw [e]
    have b0 : (writeBytes s [major ||| val]).data s.pos = (major ||| val) % 256 := by
      have := writeBytes_data_get [major ||| val] s 0 (by norm_num)
      simpa using this
    have ai : CBOR_ADDITIONAL_INFO (writeBytes s [major ||| val]) s.pos = val := by
      unfold CBOR_ADDITIONAL_INFO
      rw [b0]
      exact major_head_land31 major val hmaj (by omega)
    refine ⟨by norm_num, by simp [writeBytes_pos], ?_, ?_⟩
    · unfold CBOR_TYPE
      rw [b0]
      exact major_head_land224 major val hmaj (by omega)
    · rw [decode_int_ai_le23 _ _ (by omega : CBOR_ADDITIONAL_INFO (writeBytes s [major ||| val]) s.pos ≤ 23)]
      show _ = ((1 : Nat), val)
      rw [b0, major_head_land31 major val hmaj (by omega)]
  · by_cases h2 : val ≤ 255
    · have e : encode_int major s val =
          (2, writeBytes s [major ||| 24, val &&& 255]) := by
        unfold encode_int
        rw [if_neg h1, if_pos h2, if_neg (show ¬ s.pos + 2 ≥ s.size by omega)]
      rw [e]
      have b0 : (writeBytes s [major ||| 24, val &&& 255]).data s.pos =
          (major ||| 24) % 256 := by
        have := writeBytes_data_get [major ||| 24, val &&& 255] s 0 (by norm_num)
        simpa using this
      have b1 : (writeBytes s [major ||| 24, val &&& 255]).data (s.pos + 1) =
          (val &&& 255) % 256 := by
        have := writeBytes_data_get [major ||| 24, val &&& 255] s 1 (by norm_num)
        simpa using this
      have ai : CBOR_ADDITIONAL_INFO (writeBytes s [major ||| 24, val &&& 255]) s.pos = 24 := by
        unfold CBOR_ADDITIONAL_INFO
        rw [b0]
        exact major_head_land31 major 24 hmaj (by norm_num)
      refine ⟨by norm_num, by simp [writeBytes_pos], ?_, ?_⟩
      · unfold CBOR_TYPE
        rw [b0]
        exact major_head_land224 major 24 hmaj (by norm_num)
      · rw [decode_int_ai24 _ _ ai]
        show _ = ((2 : Nat), val)
        rw [b1, land255]
        refine congrArg _ ?_
        omega
    · by_cases h3 : val ≤ 65535
      · have e : encode_int major s val =
            (3, writeBytes s [major ||| 25, (val >>> 8) &&& 255, val &&& 255]) := by
          unfold encode_int
          rw [if_neg h1, if_neg h2, if_pos h3,
            if_neg (show ¬ s.pos + 3 ≥ s.size by omega)]
        rw [e]
        have b0 : (writeBytes s [major ||| 25, (val >>> 8) &&& 255, val &&& 255]).data s.pos =
            (major ||| 25) % 256 := by
          have := writeBytes_data_get [major ||| 25, (val >>> 8) &&& 255, val &&& 255] s 0 (by norm_num)
          simpa using this
        have b1 : (writeBytes s [major ||| 25, (val >>> 8) &&& 255, val &&& 255]).data (s.pos + 1) =
            ((val >>> 8) &&& 255) % 256 := by
          have := writeBytes_data_get [major ||| 25, (val >>> 8) &&& 255, val &&& 255] s 1 (by norm_num)
          simpa using this
        have b2 : (writeBytes s [major ||| 25, (val >>> 8) &&& 255, val &&& 255]).data (s.pos + 2) =
            (val &&& 255) % 256 := by
          have := writeBytes_data_get [major ||| 25, (val >>> 8) &&& 255, val &&& 255] s 2 (by norm_num)
          simpa using this
        have ai : CBOR_ADDITIONAL_INFO (writeBytes s [major ||| 25, (val >>> 8) &&& 255, val &&& 255]) s.pos = 25 := by
          unfold CBOR_ADDITIONAL_INFO
          rw [b0]
          exact major_head_land31 major 25 hmaj (by norm_num)
        refine ⟨by norm_num, by simp [writeBytes_pos], ?_, ?_⟩
        · unfold CBOR_TYPE
          rw [b0]
          exact major_head_land224 major 25 hmaj (by norm_num)
        · rw [decode_int_ai25 _ _ ai]
          show _ = ((3 : Nat), val)
          rw [b1, b2, recombine2 _ _ (Nat.mod_lt _ (by norm_num))]
          refine congrArg _ ?_
          simp only [Nat.shiftRight_eq_div_pow, land255]
          norm_num
          omega
      · have h4 : val ≤ 4294967295 := hval
        have e : encode_int major s val =
            (5, writeBytes s [major ||| 26, (val >>> 24) &&& 255,
              (val >>> 16) &&& 255, (val >>> 8) &&& 255, val &&& 255]) := by
          unfold encode_int
          rw [if_neg h1, if_neg h2, if_neg h3, if_pos h4,
            if_neg (show ¬ s.pos + 5 ≥ s.size by omega)]
        rw [e]
        have b0 : (writeBytes s [major ||| 26, (val >>> 24) &&& 255,
            (val >>> 16) &&& 255, (val >>> 8) &&& 255, val &&& 255]).data s.pos =
            (major ||| 26) % 256 := by
          have := writeBytes_data_get [major ||| 26, (val >>> 24) &&& 255,
            (val >>> 16) &&& 255, (val >>> 8) &&& 255, val &&& 255] s 0 (by norm_num)
          simpa using this
        have b1 : (writeBytes s [major ||| 26, (val >>> 24) &&& 255,
            (val >>> 16) &&& 255, (val >>> 8) &&& 255, val &&& 255]).data (s.pos + 1) =
            ((val >>> 24) &&& 255) % 256 := by
          have := writeBytes_data_get [major ||| 26, (val >>> 24) &&& 255,
            (val >>> 16) &&& 255, (val >>> 8) &&& 255, val &&& 255] s 1 (by norm_num)
          simpa using this
        have b2 : (writeBytes s [major ||| 26, (val >>> 24) &&& 255,
            (val >>> 16) &&& 255, (val >>> 8) &&& 255, val &&& 255]).data (s.pos + 2) =
            ((val >>> 16) &&& 255) % 256 := by
          have := writeBytes_data_get [major ||| 26, (val >>> 24) &&& 255,
            (val >>> 16) &&& 255, (val >>> 8) &&& 255, val &&& 255] s 2 (by norm_num)
          simpa using this
        have b3 : (writeBytes s [major ||| 26, (val >>> 24) &&& 255,
            (val >>> 16) &&& 255, (val >>> 8) &&& 255, val &&& 255]).data (s.pos + 3) =
            ((val >>> 8) &&& 255) % 256 := by
          have := writeBytes_data_get [major ||| 26, (val >>> 24) &&& 255,
            (val >>> 16) &&& 255, (val >>> 8) &&& 255, val &&& 255] s 3 (by norm_num)
          simpa using this
        have b4 : (writeBytes s [major ||| 26, (val >>> 24) &&& 255,
            (val >>> 16) &&& 255, (val >>> 8) &&& 255, val &&& 255]).data (s.pos + 4) =
            (val &&& 255) % 256 := by
          have := writeBytes_data_get [major ||| 26, (val >>> 24) &&& 255,
            (val >>> 16) &&& 255, (val >>> 8) &&& 255, val &&& 255] s 4 (by norm_num)
          simpa using this
        have ai : CBOR_ADDITIONAL_INFO (writeBytes s [major ||| 26, (val >>> 24) &&& 255,
            (val >>> 16) &&& 255, (val >>> 8) &&& 255, val &&& 255]) s.pos = 26 := by
          unfold CBOR_ADDITIONAL_INFO
          rw [b0]
          exact major_head_land31 major 26 hmaj (by norm_num)
        refine ⟨by norm_num, by simp [writeBytes_pos], ?_, ?_⟩
        · unfold CBOR_TYPE
          rw [b0]
          exact major_head_land224 major 26 hmaj (by norm_num)
        · rw [decode_int_ai26 _ _ ai]
          show _ = ((5 : Nat), val)
          rw [b1, b2, b3, b4,
            recombine4 _ _ _ _ (Nat.mod_lt _ (by norm_num))
              (Nat.mod_lt _ (by norm_num)) (Nat.mod_lt _ (by norm_num))]
          refine congrArg _ ?_
          simp only [Nat.shiftRight_eq_div_pow, land255]
          norm_num
          omega

theorem cbor_deserialize_int_uint (s : cbor_stream_t) (offset : Nat) (old : Int)
    (htype : CBOR_TYPE s offset = 0) :
    cbor_deserialize_int s offset (some old) =
      ((decode_int s offset).1, some (int_of_u64 (decode_int s offset).2)) := by
  simp [cbor_deserialize_int, htype]

theorem cbor_deserialize_int_negint (s : cbor_stream_t) (offset : Nat) (old : Int)
    (htype : CBOR_TYPE s offset = 32) :
    cbor_deserialize_int s offset (some old) =
      ((decode_int s offset).1,
        some (int_of_u64 (u64_neg1_sub (decode_int s offset).2))) := by
  simp [cbor_deserialize_int, htype]

/-- Width selection of the head encoder, for any argument. -/
theorem encode_int_width (major val : Nat) (s : cbor_stream_t)
    (hcap : s.pos + 9 < s.size) :
    (encode_int major s val).1 =
      (if val ≤ 23 then 1 else if val ≤ 0xff then 2 else if val ≤ 0xffff then 3
       else if val ≤ 0xffffffff then 5 else 9) ∧
    (encode_int major s val).2.pos = s.pos + (encode_int major s val).1 := by
  by_cases h1 : val ≤ 23
  · have e : encode_int major s val = (1, writeBytes s [major ||| val]) := by
      unfold encode_int
      rw [if_pos h1, if_neg (show ¬ s.pos + 1 ≥ s.size by omega)]
    rw [e]
    simp [writeBytes_pos, h1]
  · by_cases h2 : val ≤ 255
    · have e : encode_int major s val =
          (2, writeBytes s [major ||| 24, val &&& 255]) := by
        unfold encode_int
        rw [if_neg h1, if_pos h2, if_neg (show ¬ s.pos + 2 ≥ s.size by omega)]
      rw [e]
      simp [writeBytes_pos, h1, h2]
    · by_cases h3 : val ≤ 65535
      · have e : encode_int major s val =
            (3, writeBytes s [major ||| 25, (val >>> 8) &&& 255, val &&& 255]) := by
          unfold encode_int
          rw [if_neg h1, if_neg h2, if_pos h3,
            if_neg (show ¬ s.pos + 3 ≥ s.size by omega)]
        rw [e]
        simp [writeBytes_pos, h1, h2, h3]
      · by_cases h4 : val ≤ 4294967295
        · have e : encode_int major s val =
              (5, writeBytes s [major ||| 26, (val >>> 24) &&& 255,
                (val >>> 16) &&& 255, (val >>> 8) &&& 255, val &&& 255]) := by
            unfold encode_int
            rw [if_neg h1, if_neg h2, if_neg h3, if_pos h4,
              if_neg (show ¬ s.pos + 5 ≥ s.size by omega)]
          rw [e]
          simp [writeBytes_pos, h1, h2, h3, h4]
        · have e : encode_int major s val =
              (9, writeBytes s [major ||| 27, (val >>> 56) &&& 255,
                (val >>> 48) &&& 255, (val >>> 40) &&& 255, (val >>> 32) &&& 255,
                (val >>> 24) &&& 255, (val >>> 16) &&& 255, (val >>> 8) &&& 255,
                val &&& 255]) := by
            unfold encode_int
            rw [if_neg h1, if_neg h2, if_neg h3, if_neg h4,
              if_neg (show ¬ s.pos + 9 ≥ s.size by omega)]
          rw [e]
          simp [writeBytes_pos, h1, h2, h3, h4]

/-- C4: the head encoder selects the minimum width: for every unsigned
64-bit argument, with enough remaining capacity it writes (and returns)
exactly 1 byte if the argument is at most 23, 2 if at most 0xFF, 3 if at
most 0xFFFF, 5 if at most 0xFFFFFFFF and 9 otherwise, and `pos` advances
by exactly that count. -/
theorem encode_head_min_width (major val : Nat) (s : cbor_stream_t)
    (hval : val < 2 ^ 64) (hcap : s.pos + 9 < s.size) :
    (encode_int major s val).1 =
      (if val ≤ 23 then 1 else if val ≤ 0xff then 2 else if val ≤ 0xffff then 3
       else if val ≤ 0xffffffff then 5 else 9) ∧
    (encode_int major s val).2.pos = s.pos + (encode_int major s val).1 :=
  encode_int_width major val s hcap

/-- C4 witness: the width law evaluated at the boundary arguments
0, 23, 24, 255, 256, 65535, 65536, 2^32-1, 2^32, 2^64-1. -/
theorem encode_head_min_width_witness :
    (encode_int 0 ⟨fun _ => 0, 12, 0⟩ 0).1 = 1 ∧
    (encode_int 0 ⟨fun _ => 0, 12, 0⟩ 23).1 = 1 ∧
    (encode_int 0 ⟨fun _ => 0, 12, 0⟩ 24).1 = 2 ∧
    (encode_int 0 ⟨fun _ => 0, 12, 0⟩ 255).1 = 2 ∧
    (encode_int 0 ⟨fun _ => 0, 12, 0⟩ 256).1 = 3 ∧
    (encode_int 0 ⟨fun _ => 0, 12, 0⟩ 65535).1 = 3 ∧
    (encode_int 0 ⟨fun _ => 0, 12, 0⟩ 65536).1 = 5 ∧
    (encode_int 0 ⟨fun _ => 0, 12, 0⟩ 4294967295).1 = 5 ∧
    (encode_int 0 ⟨fun _ => 0, 12, 0⟩ 4294967296).1 = 9 ∧
    (encode_int 0 ⟨fun _ => 0, 12, 0⟩ 18446744073709551615).1 = 9 := by
  refine ⟨?_, ?_, ?_, ?_, ?_, ?_, ?_, ?_, ?_, ?_⟩
  · have h := (encode_head_min_width 0 0 ⟨fun _ => 0, 12, 0⟩
      (by norm_num) (by norm_num)).1
    norm_num at h
    exact h
  · have h := (encode_head_min_width 0 23 ⟨fun _ => 0, 12, 0⟩
      (by norm_num) (by norm_num)).1
    norm_num at h
    exact h
  · have h := (encode_head_min_width 0 24 ⟨fun _ => 0, 12, 0⟩
      (by norm_num) (by norm_num)).1
    norm_num at h
    exact h
  · have h := (encode_head_min_width 0 255 ⟨fun _ => 0, 12, 0⟩
      (by norm_num) (by norm_num)).1
    norm_num at h
    exact h
  · have h := (encode_head_min_width 0 256 ⟨fun _ => 0, 12, 0⟩
      (by norm_num) (by norm_num)).1
    norm_num at h
    exact h
  · have h := (encode_head_min_width 0 65535 ⟨fun _ => 0, 12, 0⟩
      (by norm_num) (by norm_num)).1
    norm_num at h
    exact h
  · have h := (encode_head_min_width 0 65536 ⟨fun _ => 0, 12, 0⟩
      (by norm_num) (by norm_num)).1
    norm_num at h
    exact h
  · have h := (encode_head_min_width 0 4294967295 ⟨fun _ => 0, 12, 0⟩
      (by norm_num) (by norm_num)).1
    norm_num at h
    exact h
  · have h := (encode_head_min_width 0 4294967296 ⟨fun _ => 0, 12, 0⟩
      (by norm_num) (by norm_num)).1
    norm_num at h
    exact h
  · have h := (encode_head_min_width 0 18446744073709551615 ⟨fun _ => 0, 12, 0⟩
      (by norm_num) (by norm_num)).1
    norm_num at h
    exact h

/-- C3: serializing any C `int` value into an empty stream of sufficient
capacity and deserializing at offset 0 yields the value again, and the
number of bytes read equals the number of bytes written (which is
non-zero). -/
theorem roundtrip_int (d : Nat → Nat) (n : Nat) (v old : Int)
    (hlo : -(2 ^ 31) ≤ v) (hhi : v < 2 ^ 31) (hn : 9 < n) :
    (cbor_deserialize_int (cbor_serialize_int ⟨d, n, 0⟩ v).2 0 (some old)).2 =
      some v ∧
    (cbor_deserialize_int (cbor_serialize_int ⟨d, n, 0⟩ v).2 0 (some old)).1 =
      (cbor_serialize_int ⟨d, n, 0⟩ v).1 ∧
    (cbor_serialize_int ⟨d, n, 0⟩ v).1 ≠ 0 := by
  have hp : (⟨d, n, 0⟩ : cbor_stream_t).pos = 0 := rfl
  by_cases hv : 0 ≤ v
  · have e : cbor_serialize_int ⟨d, n, 0⟩ v = encode_int 0 ⟨d, n, 0⟩ v.toNat := by
      unfold cbor_serialize_int
      rw [if_pos hv]
    obtain ⟨hne, hpos, htype, hdec⟩ := decode_encode_int 0 ⟨d, n, 0⟩ v.toNat
      (Or.inl rfl) (by omega) (by rw [hp]; show 9 < n; omega)
    rw [hp] at htype hdec
    rw [e, cbor_deserialize_int_uint _ _ _ htype, hdec]
    have hval_eq : int_of_u64 v.toNat = v := by
      unfold int_of_u64
      rw [Nat.mod_eq_of_lt (by omega), if_pos (by omega)]
      omega
    exact ⟨by rw [hval_eq], rfl, hne⟩
  · have e : cbor_serialize_int ⟨d, n, 0⟩ v =
        encode_int 32 ⟨d, n, 0⟩ (-1 - v).toNat := by
      unfold cbor_serialize_int
      rw [if_neg hv]
    obtain ⟨hne, hpos, htype, hdec⟩ := decode_encode_int 32 ⟨d, n, 0⟩
      (-1 - v).toNat (Or.inr rfl) (by omega) (by rw [hp]; show 9 < n; omega)
    rw [hp] at htype hdec
    rw [e, cbor_deserialize_int_negint _ _ _ htype, hdec]
    have hval_eq : int_of_u64 (u64_neg1_sub (-1 - v).toNat) = v := by
      have hu : u64_neg1_sub (-1 - v).toNat % 2 ^ 32 =
          2 ^ 32 - 1 - (-1 - v).toNat := by
        unfold u64_neg1_sub
        omega
      unfold int_of_u64
      rw [hu, if_neg (by omega)]
      omega
    exact ⟨by rw [hval_eq], rfl, hne⟩

/-- C3 witness: concrete round trips through an empty 16-byte stream, one
positive and one negative value. -/
theorem roundtrip_int_witness :
    (cbor_deserialize_int (cbor_serialize_int ⟨fun _ => 0, 16, 0⟩ 500).2 0
      (some 7)).2 = some 500 ∧
    (cbor_deserialize_int (cbor_serialize_int ⟨fun _ => 0, 16, 0⟩ (-500)).2 0
      (some 7)).2 = some (-500) := by
  exact ⟨(roundtrip_int (fun _ => 0) 16 500 7 (by norm_num) (by norm_num)
      (by norm_num)).1,
    (roundtrip_int (fun _ => 0) 16 (-500) 7 (by norm_num) (by norm_num)
      (by norm_num)).1⟩

theorem wbyte_data_outside (s : cbor_stream_t) (b : Nat) (i : Nat)
    (h : i ≠ s.pos) : (wbyte s b).data i = s.data i := by
  simp [wbyte, h]

theorem encode_int_aw (major val : Nat) (s : cbor_stream_t) :
    atomic_write s (encode_int major s val) :=
  ⟨(encode_int_atomic major val s).1, (encode_int_atomic major val s).2⟩

theorem serialize_int_aw (s : cbor_stream_t) (v : Int) :
    atomic_write s (cbor_serialize_int s v) := by
  unfold cbor_serialize_int
  split <;> exact encode_int_aw _ _ s

theorem serialize_uint64_aw (s : cbor_stream_t) (u : Nat) :
    atomic_write s (cbor_serialize_uint64_t s u) :=
  encode_int_aw 0x00 u s

theorem serialize_int64_aw (s : cbor_stream_t) (v : Int) :
    atomic_write s (cbor_serialize_int64_t s v) := by
  unfold cbor_serialize_int64_t
  split <;> exact encode_int_aw _ _ s

theorem serialize_array_aw (s : cbor_stream_t) (u : Nat) :
    atomic_write s (cbor_serialize_array s u) :=
  encode_int_aw 0x80 u s

theorem serialize_map_aw (s : cbor_stream_t) (u : Nat) :
    atomic_write s (cbor_serialize_map s u) :=
  encode_int_aw 0xA0 u s

theorem serialize_bool_aw (s : cbor_stream_t) (b : Bool) :
    atomic_write s (cbor_serialize_bool s b) := by
  unfold atomic_write cbor_serialize_bool
  split
  · exact ⟨fun _ => rfl, fun h => absurd rfl h⟩
  · refine ⟨fun h => by simp at h, fun _ => ⟨rfl, rfl, fun i hi => ?_⟩⟩
    refine wbyte_data_outside s _ i ?_
    simp at hi
    omega

theorem fixed_write_atomic (s : cbor_stream_t) (k : Nat) (l : List Nat)
    (hk : k ≠ 0) (hl : l.length = k) :
    atomic_write s (if s.pos + k ≥ s.size then ((0 : Nat), s)
      else (k, writeBytes s l)) := by
  unfold atomic_write
  split
  · exact ⟨fun _ => rfl, fun h => absurd rfl h⟩
  · refine ⟨fun h => absurd h hk, fun _ => ?_⟩
    subst hl
    exact ⟨writeBytes_pos l s, writeBytes_size l s,
      fun i hi => writeBytes_data_outside l s i hi⟩

theorem serialize_float_half_aw (s : cbor_stream_t) (fp : Nat) :
    atomic_write s (cbor_serialize_float_half s fp) := by
  unfold cbor_serialize_float_half
  exact fixed_write_atomic s 3 _ (by norm_num) rfl

theorem serialize_float_aw (s : cbor_stream_t) (fp : Nat) :
    atomic_write s (cbor_serialize_float s fp) := by
  unfold cbor_serialize_float
  exact fixed_write_atomic s 5 _ (by norm_num) rfl

theorem serialize_double_aw (s : cbor_stream_t) (fp : Nat) :
    atomic_write s (cbor_serialize_double s fp) := by
  unfold cbor_serialize_double
  exact fixed_write_atomic s 9 _ (by norm_num) rfl

theorem write_tag_aw (s : cbor_stream_t) (t : Nat) :
    atomic_write s (cbor_write_tag s t) := by
  unfold cbor_write_tag
  exact fixed_write_atomic s 1 _ (by norm_num) rfl

theorem write_break_aw (s : cbor_stream_t) :
    atomic_write s (cbor_write_break s) := by
  unfold cbor_write_break
  exact fixed_write_atomic s 1 _ (by norm_num) rfl

theorem indefinite_array_aw (s : cbor_stream_t) :
    atomic_write s (cbor_serialize_indefinite_array s) := by
  unfold cbor_serialize_indefinite_array
  exact fixed_write_atomic s 1 _ (by norm_num) rfl

theorem indefinite_map_aw (s : cbor_stream_t) :
    atomic_write s (cbor_serialize_indefinite_map s) := by
  unfold cbor_serialize_indefinite_map
  exact fixed_write_atomic s 1 _ (by norm_num) rfl

theorem encode_bytes_fail_cases (major : Nat) (s : cbor_stream_t)
    (data : List Nat) (length : Nat) :
    (encode_bytes major s data length).1 = 0 →
      (encode_bytes major s data length).2 = s ∨
      ((encode_int major s length).1 ≠ 0 ∧
        (encode_bytes major s data length).2 = (encode_int major s length).2) := by
  unfold encode_bytes
  by_cases h0 : (encode_int major s length).1 = 0
  · rw [if_pos h0]
    exact fun _ => Or.inl ((encode_int_atomic major length s).1 h0)
  · rw [if_neg h0]
    by_cases h1 : (encode_int major s length).2.pos + length ≥
        (encode_int major s length).2.size
    · rw [if_pos h1]
      exact fun _ => Or.inr ⟨h0, rfl⟩
    · rw [if_neg h1]
      intro h
      exact absurd h (by simp; omega)

/-- C1 counterexample: serializing the byte string "ab" into a 2-byte
stream writes the head byte 0x42 and advances `pos` to 1, then fails the
payload check and returns 0 — a partial item is left in the stream. -/
theorem serialize_byte_string_partial_write_cex :
    (cbor_serialize_byte_string ⟨fun _ => 0, 2, 0⟩ [97, 98, 0]).1 = 0 ∧
    (cbor_serialize_byte_string ⟨fun _ => 0, 2, 0⟩ [97, 98, 0]).2.pos = 1 ∧
    (cbor_serialize_byte_string ⟨fun _ => 0, 2, 0⟩ [97, 98, 0]).2.data 0 = 0x42 := by
  exact ⟨rfl, rfl, rfl⟩

/-- C1 amended: every serialize that writes a single `encode_int` head or
a single fixed-size item — int, uint64_t, int64_t, array, map, bool,
half/single/double float, tag, break, indefinite array, indefinite map —
is atomic (`atomic_write`): on failure the stream is unchanged and 0 is
returned, on success `pos` advances by exactly the returned count, `size`
is kept, and no byte outside the written window changes.  The byte-string
and text-string serializes are the exception: when `encode_int` succeeds
but the payload check fails they return 0 with the head already written
(the stream equals the post-head stream). -/
theorem serialize_atomicity (s : cbor_stream_t) (major val u t fp : Nat)
    (v : Int) (b : Bool) (data : List Nat) :
    atomic_write s (encode_int major s val) ∧
    atomic_write s (cbor_serialize_int s v) ∧
    atomic_write s (cbor_serialize_uint64_t s u) ∧
    atomic_write s (cbor_serialize_int64_t s v) ∧
    atomic_write s (cbor_serialize_array s u) ∧
    atomic_write s (cbor_serialize_map s u) ∧
    atomic_write s (cbor_serialize_bool s b) ∧
    atomic_write s (cbor_serialize_float_half s fp) ∧
    atomic_write s (cbor_serialize_float s fp) ∧
    atomic_write s (cbor_serialize_double s fp) ∧
    atomic_write s (cbor_write_tag s t) ∧
    atomic_write s (cbor_write_break s) ∧
    atomic_write s (cbor_serialize_indefinite_array s) ∧
    atomic_write s (cbor_serialize_indefinite_map s) ∧
    ((cbor_serialize_byte_string s data).1 = 0 →
      (cbor_serialize_byte_string s data).2 = s ∨
      ((encode_int 0x40 s (strlen data)).1 ≠ 0 ∧
        (cbor_serialize_byte_string s data).2 =
          (encode_int 0x40 s (strlen data)).2)) ∧
    ((cbor_serialize_unicode_string s data).1 = 0 →
      (cbor_serialize_unicode_string s data).2 = s ∨
      ((encode_int 0x60 s (strlen data)).1 ≠ 0 ∧
        (cbor_serialize_unicode_string s data).2 =
          (encode_int 0x60 s (strlen data)).2)) :=
  ⟨encode_int_aw major val s,
   serialize_int_aw s v,
   serialize_uint64_aw s u,
   serialize_int64_aw s v,
   serialize_array_aw s u,
   serialize_map_aw s u,
   serialize_bool_aw s b,
   serialize_float_half_aw s fp,
   serialize_float_aw s fp,
   serialize_double_aw s fp,
   write_tag_aw s t,
   write_break_aw s,
   indefinite_array_aw s,
   indefinite_map_aw s,
   encode_bytes_fail_cases 0x40 s data (strlen data),
   encode_bytes_fail_cases 0x60 s data (strlen data)⟩

/-- C1 witness: the atomicity facts applied at concrete streams — a
successful `encode_int` advances `pos` by the returned count, a failed
bool serialize leaves the stream unchanged, a successful double serialize
advances `pos` by 9 and keeps the byte below the window, and a successful
break write advances `pos` by 1. -/
theorem serialize_atomicity_witness :
    (encode_int 0 ⟨fun _ => 0, 12, 1⟩ 5).2.pos = 2 ∧
    (cbor_serialize_bool ⟨fun _ => 0, 1, 0⟩ true).2 = ⟨fun _ => 0, 1, 0⟩ ∧
    (cbor_serialize_double ⟨fun _ => 0, 12, 1⟩ 123456789).2.pos = 10 ∧
    (cbor_serialize_double ⟨fun _ => 0, 12, 1⟩ 123456789).2.data 0 = 0 ∧
    (cbor_write_break ⟨fun _ => 0, 12, 1⟩).2.pos = 2 := by
  obtain ⟨hEnc, hInt, hU64, hI64, hArr, hMap, hBool, hFH, hF, hD, hTag, hBrk,
    hIA, hIM, hBS, hUS⟩ :=
    serialize_atomicity ⟨fun _ => 0, 12, 1⟩ 0 5 3 2 123456789 7 true [97, 0]
  obtain ⟨hEnc1, hInt1, hU641, hI641, hArr1, hMap1, hBool1, hFH1, hF1, hD1,
    hTag1, hBrk1, hIA1, hIM1, hBS1, hUS1⟩ :=
    serialize_atomicity ⟨fun _ => 0, 1, 0⟩ 0 5 3 2 123456789 7 true [97, 0]
  unfold atomic_write at hEnc hBool1 hD hBrk
  refine ⟨?_, ?_, ?_, ?_, ?_⟩
  · exact (hEnc.2 (by decide)).1.trans (by decide)
  · exact hBool1.1 (by decide)
  · exact (hD.2 (by decide)).1.trans (by decide)
  · exact ((hD.2 (by decide)).2.2 0 (by decide)).trans (by decide)
  · exact (hBrk.2 (by decide)).1.trans (by decide)

/-- C2: evaluation of the reserve check at its boundary.  A fresh 1-byte
stream has remaining capacity exactly the 1 byte a bool item needs, yet
`CBOR_ENSURE_SIZE` (which tests `pos + bytes >= size`) makes the call
return 0 with `pos` unchanged; the claim's `remaining ≥ n` rule would have
it succeed.  The zero-capacity conjuncts show that the claim's
zero-capacity special case does hold. -/
theorem cbor_ensure_size_off_by_one :
    ((⟨fun _ => 0, 1, 0⟩ : cbor_stream_t).size -
      (⟨fun _ => 0, 1, 0⟩ : cbor_stream_t).pos = 1) ∧
    (cbor_serialize_bool ⟨fun _ => 0, 1, 0⟩ true).1 = 0 ∧
    (cbor_serialize_bool ⟨fun _ => 0, 1, 0⟩ true).2.pos = 0 ∧
    (encode_int 0 ⟨fun _ => 0, 2, 1⟩ 5).1 = 0 ∧
    (encode_int 0 ⟨fun _ => 0, 2, 1⟩ 5).2.pos = 1 ∧
    (cbor_serialize_bool ⟨fun _ => 0, 0, 0⟩ true).1 = 0 ∧
    (cbor_serialize_bool ⟨fun _ => 0, 0, 0⟩ true).2.pos = 0 ∧
    (cbor_serialize_int ⟨fun _ => 0, 0, 0⟩ 1000).1 = 0 ∧
    (cbor_serialize_int ⟨fun _ => 0, 0, 0⟩ 1000).2.pos = 0 ∧
    (cbor_serialize_byte_string ⟨fun _ => 0, 0, 0⟩ [97, 0]).1 = 0 ∧
    (cbor_serialize_byte_string ⟨fun _ => 0, 0, 0⟩ [97, 0]).2.pos = 0 := by
  exact ⟨rfl, rfl, rfl, rfl, rfl, rfl, rfl, rfl, rfl, rfl, rfl⟩

/-- C6 counterexample: a stream with `pos == 0` does not make `cbor_at_end`
true at offset 0 — `pos - 1` wraps in `size_t` to `2^64 - 1`, so the
claimed "position == 0 implies at_end is true for any offset" fails. -/
theorem at_end_pos_zero_cex :
    cbor_at_end (some ⟨fun _ => 0, 5, 0⟩) 0 = false := by decide

/-- C6 amended: `cbor_at_end` is true for a null stream; for `pos ≥ 1` it
is true iff `offset ≥ pos - 1`; but `pos - 1` is computed in `size_t`
arithmetic, so for `pos == 0` it wraps to `2^64 - 1` and `at_end` holds
only at offset `2^64 - 1`.  `cbor_at_break` and `cbor_at_tag` are true
whenever `cbor_at_end` is, regardless of the byte at the offset. -/
theorem at_end_spec (s : Option cbor_stream_t) (offset : Nat) :
    (s = none → cbor_at_end s offset = true) ∧
    (∀ st, s = some st → 1 ≤ st.pos → st.pos < 2 ^ 64 →
      (cbor_at_end s offset = true ↔ st.pos - 1 ≤ offset)) ∧
    (∀ st, s = some st → st.pos = 0 → offset < 2 ^ 64 →
      (cbor_at_end s offset = true ↔ offset = 2 ^ 64 - 1)) ∧
    (cbor_at_end s offset = true → cbor_at_break s offset = true) ∧
    (cbor_at_end s offset = true → cbor_at_tag s offset = true) := by
  refine ⟨?_, ?_, ?_, ?_, ?_⟩
  · intro h
    subst h
    rfl
  · intro st hst h1 h2
    subst hst
    simp [cbor_at_end]
    omega
  · intro st hst h0 hoff
    subst hst
    simp [cbor_at_end]
    omega
  · intro h
    simp [cbor_at_break, h]
  · intro h
    simp [cbor_at_tag, h]

/-- C6 witness: the end test applied at a concrete stream with `pos = 3`
(true at offset 2, and then `at_break` is true as well) and the null
stream. -/
theorem at_end_spec_witness :
    cbor_at_end (some ⟨fun _ => 0, 5, 3⟩) 2 = true ∧
    cbor_at_break (some ⟨fun _ => 0, 5, 3⟩) 2 = true ∧
    cbor_at_end none 7 = true := by
  have h1 := ((at_end_spec (some ⟨fun _ => 0, 5, 3⟩) 2).2.1 ⟨fun _ => 0, 5, 3⟩
    rfl (by norm_num) (by norm_num)).mpr (by norm_num)
  exact ⟨h1, (at_end_spec (some ⟨fun _ => 0, 5, 3⟩) 2).2.2.2.1 h1,
    (at_end_spec none 7).1 rfl⟩

/-- C7 counterexample: `cbor_serialize_bool` on a null stream runs
`CBOR_ENSURE_SIZE`, which reads `s->pos` through the null pointer before
any check — in the embedding the call evaluates to `none` (undefined
behavior), not to a normal 0 return. -/
theorem serialize_bool_null_deref_cex :
    cbor_serialize_boolN none true = none := rfl

/-- C7 amended: the serializes built on `encode_int` (int, uint64_t,
int64_t, array, map) check the stream for null and return 0 without
dereferencing it, and the deserializes for int, uint64_t, int64_t, bool,
single and double float, array, map, byte string and unicode string (and
the `decode_bytes` helper) return 0 with the pointee untouched when the
out-pointer is null.  But every fixed-size serialize (bool, half/single/
double float, tag, break, indefinite array, indefinite map) dereferences
a null stream inside `CBOR_ENSURE_SIZE`, and each of those deserializes
reads `stream->data[offset]` via `CBOR_TYPE` before its null-stream test
(`decode_bytes` lists `!s` after the dereferencing type check), so a null
stream is dereferenced (`none` in the embedding) rather than reported by
a 0 return. -/
theorem null_handling_amended :
    (∀ major val, encode_intN major none val = some (0, none)) ∧
    (∀ st offset, cbor_deserialize_int st offset none = (0, none)) ∧
    (∀ st offset, cbor_deserialize_uint64_t st offset none = (0, none)) ∧
    (∀ st offset, cbor_deserialize_int64_t st offset none = (0, none)) ∧
    (∀ st offset, cbor_deserialize_bool st offset none = (0, none)) ∧
    (∀ st offset, cbor_deserialize_float st offset none = (0, none)) ∧
    (∀ st offset, cbor_deserialize_double st offset none = (0, none)) ∧
    (∀ st offset, cbor_deserialize_array st offset none = (0, none)) ∧
    (∀ st offset, cbor_deserialize_map st offset none = (0, none)) ∧
    (∀ st offset length, decode_bytes st offset none length = (0, none)) ∧
    (∀ st offset length,
      cbor_deserialize_byte_string st offset none length = (0, none)) ∧
    (∀ st offset length,
      cbor_deserialize_unicode_string st offset none length = (0, none)) ∧
    (∀ b, cbor_serialize_boolN none b = none) ∧
    (∀ fp, cbor_serialize_float_halfN none fp = none) ∧
    (∀ fp, cbor_serialize_floatN none fp = none) ∧
    (∀ fp, cbor_serialize_doubleN none fp = none) ∧
    (∀ t, cbor_write_tagN none t = none) ∧
    (cbor_write_breakN none = none) ∧
    (cbor_serialize_indefinite_arrayN none = none) ∧
    (cbor_serialize_indefinite_mapN none = none) ∧
    (∀ offset val, cbor_deserialize_intN none offset val = none) ∧
    (∀ offset val, cbor_deserialize_uint64_tN none offset val = none) ∧
    (∀ offset val, cbor_deserialize_int64_tN none offset val = none) ∧
    (∀ offset val, cbor_deserialize_boolN none offset val = none) ∧
    (∀ offset val, cbor_deserialize_floatN none offset val = none) ∧
    (∀ offset val, cbor_deserialize_doubleN none offset val = none) ∧
    (∀ offset val, cbor_deserialize_arrayN none offset val = none) ∧
    (∀ offset val, cbor_deserialize_mapN none offset val = none) ∧
    (∀ offset out length,
      cbor_deserialize_byte_stringN none offset out length = none) ∧
    (∀ offset out length,
      cbor_deserialize_unicode_stringN none offset out length = none) ∧
    (∀ offset out length, decode_bytesN none offset out length = none) := by
  refine ⟨fun major val => rfl,
    fun st offset => by simp [cbor_deserialize_int],
    fun st offset => by simp [cbor_deserialize_uint64_t],
    fun st offset => by simp [cbor_deserialize_int64_t],
    fun st offset => by simp [cbor_deserialize_bool],
    fun st offset => by simp [cbor_deserialize_float],
    fun st offset => by simp [cbor_deserialize_double],
    fun st offset => by simp [cbor_deserialize_array],
    fun st offset => by simp [cbor_deserialize_map],
    fun st offset length => rfl,
    fun st offset length => by
      unfold cbor_deserialize_byte_string
      split <;> rfl,
    fun st offset length => by
      unfold cbor_deserialize_unicode_string
      split <;> rfl,
    fun b => rfl, fun fp => rfl, fun fp => rfl, fun fp => rfl, fun t => rfl,
    rfl, rfl, rfl,
    fun offset val => rfl, fun offset val => rfl, fun offset val => rfl,
    fun offset val => rfl, fun offset val => rfl, fun offset val => rfl,
    fun offset val => rfl, fun offset val => rfl,
    fun offset out length => rfl, fun offset out length => rfl,
    fun offset out length => rfl⟩

/-- C5: evaluation of `decode_bytes` at the failing input.  The stream
holds the byte string item `0x41 0x61` (payload length 1) and the
destination capacity is 0; the claim requires failure (`0 < 1 + 1`), but
the source's check `length + 1 < bytes_length` passes, 2 is returned, the
payload is copied to `out[0]` and the terminator to `out[1]` — both past
the end of the 0-byte destination buffer. -/
theorem decode_bytes_overflow :
    (decode_bytes ⟨fun i => if i = 0 then 0x41 else 0x61, 2, 2⟩ 0
      (some fun _ => 7) 0).1 = 2 ∧
    ((decode_bytes ⟨fun i => if i = 0 then 0x41 else 0x61, 2, 2⟩ 0
      (some fun _ => 7) 0).2.getD (fun _ => 0)) 0 = 0x61 ∧
    ((decode_bytes ⟨fun i => if i = 0 then 0x41 else 0x61, 2, 2⟩ 0
      (some fun _ => 7) 0).2.getD (fun _ => 0)) 1 = 0 := by
  exact ⟨rfl, rfl, rfl⟩

theorem byte_type_lt224 : ∀ x < 256, x < 224 → x &&& 224 ≠ 224 := by decide

theorem byte_type_ge224 : ∀ x < 256, 224 ≤ x → x &&& 224 = 224 := by decide

theorem byte_type_lt32 : ∀ x < 256, x < 32 → x &&& 224 = 0 := by decide

theorem byte_type_32_64 : ∀ x < 256, 32 ≤ x → x < 64 → x &&& 224 = 32 := by
  decide

theorem byte_type_ge64 : ∀ x < 256, 64 ≤ x →
    x &&& 224 ≠ 0 ∧ x &&& 224 ≠ 32 := by decide

/-- C8: `cbor_deserialize_bool` returns 0 and leaves the pointee alone when
the byte at the offset is not major type 7 (byte < 0xE0) or the
out-pointer is null; on any major-7 byte it consumes exactly 1 byte and
stores `true` iff the byte equals 0xF5 (so 0xF6, 0xF7, floats and break
all deserialize to `false` with 1 byte consumed). -/
theorem deserialize_bool_spec (s : cbor_stream_t) (offset : Nat) (old : Bool)
    (hbyte : s.data offset < 256) :
    (s.data offset < 0xE0 →
      cbor_deserialize_bool s offset (some old) = (0, some old)) ∧
    (cbor_deserialize_bool s offset none = (0, none)) ∧
    (0xE0 ≤ s.data offset →
      cbor_deserialize_bool s offset (some old) =
        (1, some (decide (s.data offset = 0xF5)))) := by
  refine ⟨?_, by simp [cbor_deserialize_bool], ?_⟩
  · intro h
    have ht : CBOR_TYPE s offset ≠ 0xE0 := byte_type_lt224 _ hbyte h
    simp [cbor_deserialize_bool, ht]
  · intro h
    have ht : CBOR_TYPE s offset = 0xE0 := byte_type_ge224 _ hbyte h
    simp [cbor_deserialize_bool, ht]

/-- C8 witness: 0xF6 (null) deserializes to `false` with 1 byte consumed,
0xF5 to `true`, and a non-major-7 byte fails leaving the pointee alone. -/
theorem deserialize_bool_spec_witness :
    cbor_deserialize_bool ⟨fun _ => 0xF6, 1, 1⟩ 0 (some true) = (1, some false) ∧
    cbor_deserialize_bool ⟨fun _ => 0xF5, 1, 1⟩ 0 (some false) = (1, some true) ∧
    cbor_deserialize_bool ⟨fun _ => 0x41, 1, 1⟩ 0 (some true) = (0, some true) := by
  refine ⟨?_, ?_, ?_⟩
  · have h := (deserialize_bool_spec ⟨fun _ => 0xF6, 1, 1⟩ 0 true
      (by decide)).2.2 (by decide)
    simpa using h
  · have h := (deserialize_bool_spec ⟨fun _ => 0xF5, 1, 1⟩ 0 false
      (by decide)).2.2 (by decide)
    simpa using h
  · exact (deserialize_bool_spec ⟨fun _ => 0x41, 1, 1⟩ 0 true
      (by decide)).1 (by decide)

theorem cbor_deserialize_int_mismatch (s : cbor_stream_t) (offset : Nat)
    (val : Option Int) (h1 : CBOR_TYPE s offset ≠ 0)
    (h2 : CBOR_TYPE s offset ≠ 32) :
    cbor_deserialize_int s offset val = (0, val) := by
  simp [cbor_deserialize_int, h1, h2]

theorem cbor_deserialize_int64_uint (s : cbor_stream_t) (offset : Nat)
    (old : Int) (htype : CBOR_TYPE s offset = 0) :
    cbor_deserialize_int64_t s offset (some old) =
      ((decode_int s offset).1, some (int64_of_u64 (decode_int s offset).2)) := by
  simp [cbor_deserialize_int64_t, htype]

theorem cbor_deserialize_int64_negint (s : cbor_stream_t) (offset : Nat)
    (old : Int) (htype : CBOR_TYPE s offset = 32) :
    cbor_deserialize_int64_t s offset (some old) =
      ((decode_int s offset).1,
        some (int64_of_u64 (u64_neg1_sub (decode_int s offset).2))) := by
  simp [cbor_deserialize_int64_t, htype]

theorem cbor_deserialize_int64_mismatch (s : cbor_stream_t) (offset : Nat)
    (val : Option Int) (h1 : CBOR_TYPE s offset ≠ 0)
    (h2 : CBOR_TYPE s offset ≠ 32) :
    cbor_deserialize_int64_t s offset val = (0, val) := by
  simp [cbor_deserialize_int64_t, h1, h2]

theorem int_of_u64_zero : int_of_u64 0 = 0 := by decide

theorem int_of_u64_neg1sub_zero : int_of_u64 (u64_neg1_sub 0) = -1 := by decide

theorem int64_of_u64_zero : int64_of_u64 0 = 0 := by decide

theorem int64_of_u64_neg1sub_zero : int64_of_u64 (u64_neg1_sub 0) = -1 := by
  decide

/-- C9: on a byte with major type 0 or 1 whose additional information is
28..31, `cbor_deserialize_int` and `cbor_deserialize_int64_t` return 0 yet
overwrite the out-parameter (0 for major type 0, -1 for major type 1),
unlike the major-type-mismatch path, which returns 0 with the pointee
untouched. -/
theorem deserialize_int_invalid_ai (s : cbor_stream_t) (offset : Nat)
    (old : Int) (hbyte : s.data offset < 256) :
    (s.data offset < 0x20 → 28 ≤ s.data offset % 32 →
      cbor_deserialize_int s offset (some old) = (0, some 0) ∧
      cbor_deserialize_int64_t s offset (some old) = (0, some 0)) ∧
    (0x20 ≤ s.data offset → s.data offset < 0x40 → 28 ≤ s.data offset % 32 →
      cbor_deserialize_int s offset (some old) = (0, some (-1)) ∧
      cbor_deserialize_int64_t s offset (some old) = (0, some (-1))) ∧
    (0x40 ≤ s.data offset →
      cbor_deserialize_int s offset (some old) = (0, some old) ∧
      cbor_deserialize_int64_t s offset (some old) = (0, some old)) := by
  refine ⟨?_, ?_, ?_⟩
  · intro h1 h2
    have ht : CBOR_TYPE s offset = 0 := byte_type_lt32 _ hbyte h1
    have hai : 28 ≤ CBOR_ADDITIONAL_INFO s offset := by
      unfold CBOR_ADDITIONAL_INFO
      rw [land31]
      exact h2
    have hdec := decode_int_ai_invalid s offset hai
    rw [cbor_deserialize_int_uint _ _ _ ht, cbor_deserialize_int64_uint _ _ _ ht,
      hdec]
    simp [int_of_u64_zero, int64_of_u64_zero]
  · intro h1 h2 h3
    have ht : CBOR_TYPE s offset = 32 := byte_type_32_64 _ hbyte h1 h2
    have hai : 28 ≤ CBOR_ADDITIONAL_INFO s offset := by
      unfold CBOR_ADDITIONAL_INFO
      rw [land31]
      exact h3
    have hdec := decode_int_ai_invalid s offset hai
    rw [cbor_deserialize_int_negint _ _ _ ht,
      cbor_deserialize_int64_negint _ _ _ ht, hdec]
    simp [int_of_u64_neg1sub_zero, int64_of_u64_neg1sub_zero]
  · intro h1
    obtain ⟨ht1, ht2⟩ := byte_type_ge64 _ hbyte h1
    exact ⟨cbor_deserialize_int_mismatch s offset (some old) ht1 ht2,
      cbor_deserialize_int64_mismatch s offset (some old) ht1 ht2⟩

/-- C9 witness: byte 0x1C (major 0, ai 28) zeroes the pointee, byte 0x3F
(major 1, ai 31) writes -1, and byte 0x5C (major 2) leaves the pointee 7. -/
theorem deserialize_int_invalid_ai_witness :
    cbor_deserialize_int ⟨fun _ => 0x1C, 1, 1⟩ 0 (some 7) = (0, some 0) ∧
    cbor_deserialize_int ⟨fun _ => 0x3F, 1, 1⟩ 0 (some 7) = (0, some (-1)) ∧
    cbor_deserialize_int64_t ⟨fun _ => 0x5C, 1, 1⟩ 0 (some 7) = (0, some 7) := by
  refine ⟨?_, ?_, ?_⟩
  · exact ((deserialize_int_invalid_ai ⟨fun _ => 0x1C, 1, 1⟩ 0 7
      (by decide)).1 (by decide) (by decide)).1
  · exact ((deserialize_int_invalid_ai ⟨fun _ => 0x3F, 1, 1⟩ 0 7
      (by decide)).2.1 (by decide) (by decide) (by decide)).1
  · exact ((deserialize_int_invalid_ai ⟨fun _ => 0x5C, 1, 1⟩ 0 7
      (by decide)).2.2 (by decide)).2

theorem takeWhile_len_le (p : Nat → Bool) (l : List Nat) :
    (l.takeWhile p).length ≤ l.length := by
  induction l with
  | nil => simp
  | cons a t ih =>
    rw [List.takeWhile_cons]
    split
    · simp
      omega
    · simp

theorem takeWhile_getD (p : Nat → Bool) (l : List Nat) (i : Nat)
    (h : i < (l.takeWhile p).length) :
    (l.takeWhile p).getD i 0 = l.getD i 0 := by
  induction l generalizing i with
  | nil => simp at h
  | cons a t ih =>
    rw [List.takeWhile_cons] at h ⊢
    by_cases hp : p a
    · rw [if_pos hp] at h ⊢
      cases i with
      | zero => simp
      | succ j =>
        rw [List.getD_cons_succ, List.getD_cons_succ]
        exact ih j (by simpa using h)
    · rw [if_neg hp] at h
      simp at h

theorem range_map_getD (f : Nat → Nat) (n i : Nat) (h : i < n) :
    ((List.range n).map f).getD i 0 = f i := by
  rw [List.getD_eq_getElem?_getD, List.getElem?_map, List.getElem?_range h]
  rfl

theorem encode_bytes_strlen_spec (major : Nat) (s : cbor_stream_t)
    (val : List Nat) (hmaj : major < 256) (hb : ∀ b ∈ val, b < 256)
    (hcap : s.pos + 9 + strlen val < s.size) :
    (encode_bytes major s val (strlen val)).1 =
      (encode_int major s (strlen val)).1 + strlen val ∧
    (encode_bytes major s val (strlen val)).1 ≠ 0 ∧
    (encode_bytes major s val (strlen val)).2.pos =
      s.pos + (encode_bytes major s val (strlen val)).1 ∧
    (∀ i, i < strlen val →
      (encode_bytes major s val (strlen val)).2.data
          (s.pos + (encode_int major s (strlen val)).1 + i) =
        (val.takeWhile (fun b => b != 0)).getD i 0) ∧
    (strlen val = 0 →
      (encode_bytes major s val (strlen val)).1 = 1 ∧
      (encode_bytes major s val (strlen val)).2.data s.pos = major) := by
  have hw := encode_int_width major (strlen val) s (by omega)
  have hwbound : 1 ≤ (encode_int major s (strlen val)).1 ∧
      (encode_int major s (strlen val)).1 ≤ 9 := by
    rw [hw.1]
    split_ifs <;> norm_num
  have hne : (encode_int major s (strlen val)).1 ≠ 0 := by omega
  have hatom := (encode_int_atomic major (strlen val) s).2 hne
  have hcap2 : ¬ ((encode_int major s (strlen val)).2.pos + strlen val ≥
      (encode_int major s (strlen val)).2.size) := by
    rw [hatom.1, hatom.2.1]
    omega
  have heb : encode_bytes major s val (strlen val) =
      ((encode_int major s (strlen val)).1 + strlen val,
        writeBytes (encode_int major s (strlen val)).2
          ((List.range (strlen val)).map fun i => val.getD i 0)) := by
    simp only [encode_bytes]
    rw [if_neg hne, if_neg hcap2]
  refine ⟨by rw [heb], by rw [heb]; simp; omega, ?_, ?_, ?_⟩
  · rw [heb]
    show (writeBytes _ _).pos = s.pos +
      ((encode_int major s (strlen val)).1 + strlen val)
    rw [writeBytes_pos, hatom.1]
    have hpl : ((List.range (strlen val)).map fun i => val.getD i 0).length =
        strlen val := by simp
    rw [hpl]
    omega
  · intro i hi
    rw [heb]
    show (writeBytes (encode_int major s (strlen val)).2
        ((List.range (strlen val)).map fun i => val.getD i 0)).data
        (s.pos + (encode_int major s (strlen val)).1 + i) = _
    rw [← hatom.1]
    rw [writeBytes_data_get _ _ i (by simpa using hi)]
    rw [range_map_getD _ _ _ hi]
    have hlt : i < (val.takeWhile (fun b => b != 0)).length := by
      simpa [strlen] using hi
    rw [takeWhile_getD (fun b => b != 0) val i hlt]
    have hiv : i < val.length := lt_of_lt_of_le hlt (takeWhile_len_le _ _)
    have hmem : val.getD i 0 ∈ val := by
      rw [List.getD_eq_getElem val 0 hiv]
      exact List.getElem_mem hiv
    exact Nat.mod_eq_of_lt (hb _ hmem)
  · intro h0
    have hw0 : (encode_int major s (strlen val)).1 = 1 := by
      rw [hw.1, h0]
      norm_num
    have hnil : ((List.range (strlen val)).map fun i => val.getD i 0) = [] := by
      rw [h0]
      rfl
    have e0 : encode_int major s (strlen val) =
        (1, writeBytes s [major ||| strlen val]) := by
      unfold encode_int
      rw [if_pos (by omega : strlen val ≤ 23),
        if_neg (by omega : ¬ s.pos + 1 ≥ s.size)]
    constructor
    · rw [heb]
      show (encode_int major s (strlen val)).1 + strlen val = 1
      omega
    · rw [heb, hnil]
      show (encode_int major s (strlen val)).2.data s.pos = major
      rw [e0]
      show (writeBytes s [major ||| strlen val]).data s.pos = major
      have hhead : (writeBytes s [major ||| strlen val]).data s.pos =
          (major ||| strlen val) % 256 := by
        have h := writeBytes_data_get [major ||| strlen val] s 0 (by norm_num)
        simpa using h
      rw [hhead, h0]
      have hz : major ||| 0 = major := by simp
      rw [hz]
      exact Nat.mod_eq_of_lt hmaj

/-- C10: the byte-string and text-string serializes take the payload
length from `strlen`, so the encoded item holds exactly the bytes before
the first zero byte of the input (an embedded zero truncates the payload),
and the empty string encodes as the single head byte (0x40 or 0x60). -/
theorem serialize_string_strlen (s : cbor_stream_t) (val : List Nat)
    (hb : ∀ b ∈ val, b < 256) (hcap : s.pos + 9 + strlen val < s.size) :
    ((cbor_serialize_byte_string s val).1 =
        (encode_int 0x40 s (strlen val)).1 + strlen val ∧
      (cbor_serialize_byte_string s val).1 ≠ 0 ∧
      (cbor_serialize_byte_string s val).2.pos =
        s.pos + (cbor_serialize_byte_string s val).1 ∧
      (∀ i, i < strlen val →
        (cbor_serialize_byte_string s val).2.data
            (s.pos + (encode_int 0x40 s (strlen val)).1 + i) =
          (val.takeWhile (fun b => b != 0)).getD i 0) ∧
      (strlen val = 0 → (cbor_serialize_byte_string s val).1 = 1 ∧
        (cbor_serialize_byte_string s val).2.data s.pos = 0x40)) ∧
    ((cbor_serialize_unicode_string s val).1 =
        (encode_int 0x60 s (strlen val)).1 + strlen val ∧
      (cbor_serialize_unicode_string s val).1 ≠ 0 ∧
      (cbor_serialize_unicode_string s val).2.pos =
        s.pos + (cbor_serialize_unicode_string s val).1 ∧
      (∀ i, i < strlen val →
        (cbor_serialize_unicode_string s val).2.data
            (s.pos + (encode_int 0x60 s (strlen val)).1 + i) =
          (val.takeWhile (fun b => b != 0)).getD i 0) ∧
      (strlen val = 0 → (cbor_serialize_unicode_string s val).1 = 1 ∧
        (cbor_serialize_unicode_string s val).2.data s.pos = 0x60)) :=
  ⟨encode_bytes_strlen_spec 0x40 s val (by norm_num) hb hcap,
   encode_bytes_strlen_spec 0x60 s val (by norm_num) hb hcap⟩

/-- C10 witness: the byte string [97, 98, 0, 99] has strlen 2 and encodes
as 3 bytes (head 0x42 then 97, 98 — the byte 99 after the embedded zero is
not serialized), and the empty text string encodes as the single byte
0x60. -/
theorem serialize_string_strlen_witness :
    (cbor_serialize_byte_string ⟨fun _ => 0, 20, 0⟩ [97, 98, 0, 99]).1 = 3 ∧
    (cbor_serialize_byte_string ⟨fun _ => 0, 20, 0⟩ [97, 98, 0, 99]).2.data 1 = 97 ∧
    (cbor_serialize_byte_string ⟨fun _ => 0, 20, 0⟩ [97, 98, 0, 99]).2.data 2 = 98 ∧
    (cbor_serialize_unicode_string ⟨fun _ => 0, 20, 0⟩ [0]).2.data 0 = 0x60 := by
  have h := serialize_string_strlen ⟨fun _ => 0, 20, 0⟩ [97, 98, 0, 99]
    (by decide) (by decide)
  have h2 := serialize_string_strlen ⟨fun _ => 0, 20, 0⟩ [0]
    (by decide) (by decide)
  refine ⟨?_, ?_, ?_, ?_⟩
  · exact h.1.1.trans (by decide)
  · exact h.1.2.2.2.1 0 (by decide)
  · exact h.1.2.2.2.1 1 (by decide)
  · exact (h2.2.2.2.2.2 (by decide)).2
